import Mathlib

/-!
Verification development for the seedphrase scanner (`src/index.js`).

The file shallowly embeds the parts of the program the claims are about:
the JSON response model and the dotted/bracketed path extraction
(`getNestedValue`), the JavaScript `BigInt` coercion used on extracted
fields, the per-chain provider descriptors (`apiProviders`), the balance
resolver (`getBalance`, the variant at lines 967-1064 returning
`{native, tokens}`), the exchange-rate refresh (`updateAllExchangeRates`,
lines 924-957), the `/start` strength selection of both variants
(lines 369-380 and 1116-1130), the scan-state flag handlers
(`/start`, `/pause`, `/stop`), and the address-derivation dispatch
(`deriveAddress`, lines 96-135).

Remote behaviour (HTTP fetches, direct RPC clients, ERC20 contract
calls) is passed in explicitly: each provider attempt is paired with the
`RemoteEvent` the outside world produced for it, and each token contract
probe with an oracle `String -> Except Unit Int`.  `Except.error` models
a thrown JavaScript exception reaching the surrounding `try`.
-/

namespace Seedphrase

/-! ## JSON values and JavaScript coercions -/

/-- Parsed JSON bodies as the resolver sees them after `response.json()`.
Numbers are modelled as integers (all balance fields are integral). -/
inductive Json where
  | num (n : Int)
  | str (s : String)
  | bool (b : Bool)
  | nullv
  | obj (fields : List (String × Json))
  | arr (items : List Json)

/-- First binding of a key in a JSON object (JavaScript property read). -/
def lookupField : List (String × Json) → String → Option Json
  | [], _ => none
  | (k, v) :: rest, key => if k == key then some v else lookupField rest key

/-- `o[key]` on a JSON value: `none` models `undefined`. -/
def getField (j : Json) (key : String) : Option Json :=
  match j with
  | .obj fields => lookupField fields key
  | _ => none

/-- JavaScript truthiness of a JSON value. -/
def jsTruthy : Json → Bool
  | .num n => n != 0
  | .str s => s != ""
  | .bool b => b
  | .nullv => false
  | .obj _ => true
  | .arr _ => true

/-- `o[idx]` for a bracketed integer index (arrays only; `undefined` otherwise). -/
def jsIndex (j : Json) (idx : Nat) : Option Json :=
  match j with
  | .arr items => items[idx]?
  | _ => none

/-- Split a character list at every occurrence of `sep` (JavaScript
`String.prototype.split` with a single-character separator). -/
def splitOnChar (sep : Char) : List Char → List (List Char)
  | [] => [[]]
  | c :: rest =>
    let r := splitOnChar sep rest
    if c == sep then [] :: r
    else
      match r with
      | [] => [[c]]
      | seg :: segs => (c :: seg) :: segs

/-- `path.split('.')` from `getNestedValue`. -/
def splitPath (path : String) : List String :=
  (splitOnChar '.' path.toList).map (fun cs => String.mk cs)

/-- `mnemonic.split(' ')` from the TON derivation branch. -/
def splitOnSpace (s : String) : List String :=
  (splitOnChar ' ' s.toList).map (fun cs => String.mk cs)

/-- Characters matched by `\w` in the segment pattern. -/
def isWordChar (c : Char) : Bool := c.isAlphanum || c == '_'

/-- Decimal digits to a natural number. -/
def digitsToNat (l : List Char) : Nat :=
  l.foldl (fun acc c => acc * 10 + (c.toNat - 48)) 0

/-- The segment pattern `(\w+)\[(\d+)\]` of `getNestedValue`: a bracketed
array index such as `data[0]`.  Plain segments yield `none`. -/
def parseSegment (seg : String) : Option (String × Nat) :=
  match splitOnChar '[' seg.toList with
  | [name, rest] =>
    (match splitOnChar ']' rest with
     | [digits, []] =>
       if !name.isEmpty && name.all isWordChar && !digits.isEmpty && digits.all Char.isDigit then
         some (String.mk name, digitsToNat digits)
       else none
     | _ => none)
  | _ => none

/-- One step of the `reduce` in `getNestedValue`.  `none` models
`undefined`; a falsy accumulator short-circuits exactly as `o && o[i]`
does (it is returned itself on the plain branch, and produces
`undefined` on the bracketed branch). -/
def nestedStep (acc : Option Json) (seg : String) : Option Json :=
  match acc with
  | none => none
  | some o =>
    match parseSegment seg with
    | some (name, idx) =>
      if jsTruthy o then
        match getField o name with
        | some inner => if jsTruthy inner then jsIndex inner idx else none
        | none => none
      else none
    | none => if jsTruthy o then getField o seg else some o

/-- `getNestedValue(obj, path)` from `getBalance`: fold the split path
over the parsed body. -/
def getNestedValue (data : Json) (path : String) : Option Json :=
  (splitPath path).foldl nestedStep (some data)

/-- `BigInt(string)`: empty string is `0n`, optionally signed digit
strings convert, anything else throws (`none`). -/
def strToBigInt (s : String) : Option Int :=
  match s.toList with
  | [] => some 0
  | '-' :: rest =>
    if !rest.isEmpty && rest.all Char.isDigit then some (-(digitsToNat rest : Int)) else none
  | '+' :: rest =>
    if !rest.isEmpty && rest.all Char.isDigit then some (digitsToNat rest : Int) else none
  | l => if l.all Char.isDigit then some (digitsToNat l : Int) else none

/-- `BigInt(x)` on a JSON value; `none` models a thrown `TypeError`
(`BigInt(null)`, `BigInt({})`, `BigInt(undefined)` at call sites). -/
def jsToBigInt : Json → Option Int
  | .num n => some n
  | .str s => strToBigInt s
  | .bool b => some (if b then 1 else 0)
  | .nullv => none
  | .obj _ => none
  | .arr _ => none

/-! ## Provider descriptors (`apiProviders`) -/

/-- A balance provider descriptor: name, optional dedicated client
method and the dotted/bracketed response path (URL template and API key
only shape the request and are not part of extraction). -/
structure Provider where
  name : String
  method : Option String := none
  responsePath : Option String := none

def etherscanProvider : Provider :=
  { name := "etherscan", responsePath := some "result" }

def mempoolSpaceProvider : Provider :=
  { name := "mempool_space", responsePath := some "chain_stats" }

def trongridProvider : Provider :=
  { name := "trongrid", responsePath := some "data[0].balance" }

def solanaProvider : Provider :=
  { name := "solana", method := some "getBalance", responsePath := some "value" }

def toncenterProvider : Provider :=
  { name := "toncenter" }

/-! ## The balance resolver (`getBalance`, lines 967-1064) -/

/-- What the outside world returned for one provider attempt: a thrown
error or non-ok response, a parsed JSON body, or a direct client value
(Solana RPC / TON client). -/
inductive RemoteEvent where
  | err
  | json (data : Json)
  | val (v : Int)

/-- The direct-client branches (`provider.method === 'getBalance'` and
`provider.name === 'toncenter'`): the awaited client call either yields
a value or throws. -/
def directClientResult : RemoteEvent → Except Unit Int
  | .val v => .ok v
  | _ => .error ()

/-- `data.status !== '1'` (strict comparison against the string `'1'`). -/
def statusNotOne (data : Json) : Bool :=
  match getField data "status" with
  | some (.str s) => s != "1"
  | _ => true

/-- The `mempool_space` branch: `stats = getNestedValue(data, path)`;
if truthy, `BigInt(stats.funded_txo_sum) - BigInt(stats.spent_txo_sum)`
(either coercion may throw); otherwise the balance stays `0n`. -/
def extractMempool (data : Json) (path : String) : Except Unit Int :=
  match getNestedValue data path with
  | some stats =>
    if jsTruthy stats then
      match getField stats "funded_txo_sum" with
      | some fj =>
        match jsToBigInt fj with
        | some funded =>
          match getField stats "spent_txo_sum" with
          | some sj =>
            match jsToBigInt sj with
            | some spent => .ok (funded - spent)
            | none => .error ()
          | none => .error ()
        | none => .error ()
      | none => .error ()
    else .ok 0
  | none => .ok 0

/-- The generic REST branch: extract `rawBalance`; if defined and not
null, `BigInt(rawBalance)` (which may throw); otherwise `0n`. -/
def extractGeneric (data : Json) (path : String) : Except Unit Int :=
  match getNestedValue data path with
  | some raw =>
    match raw with
    | .nullv => .ok 0
    | _ =>
      match jsToBigInt raw with
      | some v => .ok v
      | none => .error ()
  | none => .ok 0

/-- The native-balance part of one provider attempt inside the `try`
of `getBalance`.  A missing `responsePath` on the REST branch models
`undefined.split` throwing. -/
def tryProviderNative (p : Provider) (e : RemoteEvent) : Except Unit Int :=
  if p.method == some "getBalance" then directClientResult e
  else if p.name == "toncenter" then directClientResult e
  else
    match e with
    | .json data =>
      if p.name == "etherscan" && statusNotOne data then .error ()
      else
        match p.responsePath with
        | some path =>
          if p.name == "mempool_space" then extractMempool data path
          else extractGeneric data path
        | none => .error ()
    | _ => .error ()

/-! ## Networks (`networks`, lines 829-853) -/

/-- A token contract entry of a network definition. -/
structure TokenInfo where
  address : String
  decimals : Nat

/-- Static per-chain configuration. -/
structure Network where
  tokens : Option (List (String × TokenInfo)) := none
  decimals : Nat

def usdtEthereum : TokenInfo :=
  { address := "0xdac17f958d2ee523a2206206994597c13d831ec7", decimals := 6 }

/-- `networks[currency]` of the `{native, tokens}` variant: bitcoin,
ethereum (with the USDT contract), solana and ton. -/
def networks (currency : String) : Option Network :=
  if currency == "bitcoin" then some { decimals := 8 }
  else if currency == "ethereum" then
    some { tokens := some [("usdt", usdtEthereum)], decimals := 18 }
  else if currency == "solana" then some { decimals := 9 }
  else if currency == "ton" then some { decimals := 9 }
  else none

/-- Result record `{native, tokens}`; an absent `tokens` key is the
empty list. -/
structure BalanceResult where
  native : Int
  tokens : List (String × Int) := []
deriving DecidableEq

/-- `getBalance` returns either the plain number `0` (the unconfigured
early return) or a `{native, tokens}` record. -/
inductive JsBalanceReturn where
  | num (n : Int)
  | res (r : BalanceResult)
deriving DecidableEq

/-- The token loop body accumulator: probe each contract (only the
ethereum path performs a call; elsewhere `tokenBalance` stays `0n`) and
keep the strictly positive balances.  A throwing probe escapes to the
surrounding `try`. -/
def runTokensAux (currency : String) (probe : String → Except Unit Int)
    (acc : List (String × Int)) : List (String × TokenInfo) → Except Unit (List (String × Int))
  | [] => .ok acc
  | t :: ts =>
    match (if currency == "ethereum" then probe t.2.address else .ok 0) with
    | .error e => .error e
    | .ok v => runTokensAux currency probe (if 0 < v then acc ++ [(t.1, v)] else acc) ts

/-- The token-balance loop of `getBalance` (lines 1034-1049). -/
def runTokens (currency : String) (toks : List (String × TokenInfo))
    (probe : String → Except Unit Int) : Except Unit (List (String × Int)) :=
  runTokensAux currency probe [] toks

/-- One provider attempt of the resolver: the provider descriptor, the
remote event it produced, and the token-contract probe oracle. -/
structure AttemptInput where
  provider : Provider
  event : RemoteEvent
  probe : String → Except Unit Int

/-- The whole `try` body for one provider (lines 979-1055): native
extraction, the early `return {native}` on a positive balance, then the
token probes.  `networks[currency]` being `undefined` makes
`network.tokens` throw. -/
def attemptProvider (currency : String) (a : AttemptInput) : Except Unit BalanceResult :=
  match tryProviderNative a.provider a.event with
  | .error e => .error e
  | .ok balance =>
    if 0 < balance then .ok { native := balance }
    else
      match networks currency with
      | none => .error ()
      | some network =>
        match network.tokens with
        | some toks =>
          match runTokens currency toks a.probe with
          | .error e => .error e
          | .ok tokenBalances =>
            if 0 < tokenBalances.length then .ok { native := balance, tokens := tokenBalances }
            else .ok { native := balance }
        | none => .ok { native := balance }

/-- The provider fallback loop: a caught error sleeps 1000 ms and moves
on; the first attempt that completes returns immediately; exhaustion
returns `{native: 0n}`.  The second component collects the sleeps. -/
def getBalanceLoop (currency : String) : List AttemptInput → BalanceResult × List Nat
  | [] => ({ native := 0 }, [])
  | a :: rest =>
    match attemptProvider currency a with
    | .ok r => (r, [])
    | .error _ =>
      ((getBalanceLoop currency rest).1, 1000 :: (getBalanceLoop currency rest).2)

/-- `getBalance(currency, address)` (lines 967-1064): a missing or
empty provider list returns the plain number `0`; otherwise the
fallback loop runs. -/
def getBalance (currency : String) (providers : Option (List AttemptInput)) :
    JsBalanceReturn × List Nat :=
  match providers with
  | none => (.num 0, [])
  | some [] => (.num 0, [])
  | some (a :: rest) =>
    (.res (getBalanceLoop currency (a :: rest)).1, (getBalanceLoop currency (a :: rest)).2)

/-- `balance` as read by callers of `getBalance` (the plain `0` of the
unconfigured return is the zero balance). -/
def retNative : JsBalanceReturn → Int
  | .num n => n
  | .res r => r.native

/-- The tokens mapping as read by callers (absent on the plain `0`). -/
def retTokens : JsBalanceReturn → List (String × Int)
  | .num _ => []
  | .res r => r.tokens

/-! ## Exchange-rate cache (`updateAllExchangeRates`, lines 924-957) -/

/-- The process-wide `exchangeRateCache` object: symbol to USD price. -/
abbrev RateCache := String → Option Rat

/-- `mobulaSymbols`: currency key to price-API ticker. -/
def mobulaSymbols : List (String × String) :=
  [("bitcoin", "BTC"), ("ethereum", "ETH"), ("solana", "SOL"), ("ton", "TON"), ("usdt", "USDT")]

/-- `Object.keys(mobulaSymbols).find(key => mobulaSymbols[key] === symbol)`. -/
def currencyForSymbol (symbol : String) : Option String :=
  (mobulaSymbols.find? (fun kv => kv.2 == symbol)).map (fun kv => kv.1)

/-- `exchangeRateCache[currency] = rate`. -/
def setRate (cache : RateCache) (currency : String) (rate : Rat) : RateCache :=
  fun k => if k == currency then some rate else cache k

/-- The hardcoded fallback assignments executed on an API error or a
fetch exception (lines 942-946 and 951-955). -/
def applyFallbackRates (cache : RateCache) : RateCache :=
  setRate (setRate (setRate (setRate (setRate cache "bitcoin" 60000)
    "ethereum" 3000) "solana" 150) "ton" 6) "usdt" 1

/-- One iteration of `for (const symbol in data)`: update the cache
entry when the symbol maps back to a currency and carries a truthy USD
price. -/
def rateStep (cache : RateCache) (entry : String × Option Rat) : RateCache :=
  match currencyForSymbol entry.1 with
  | some currency =>
    match entry.2 with
    | some usd => if usd ≠ 0 then setRate cache currency usd else cache
    | none => cache
  | none => cache

/-- `updateAllExchangeRates`: `none` models the error path (a thrown
fetch, a non-ok response, or `data.Response === 'Error'`); `some data`
models the success path over the response entries (symbol paired with
its `.USD` field, absent when missing or falsy objects skip it). -/
def updateAllExchangeRates (cache : RateCache)
    (resp : Option (List (String × Option Rat))) : RateCache :=
  match resp with
  | some data => data.foldl rateStep cache
  | none => applyFallbackRates cache

/-! ## Scan state flags and the `/start` strength selection -/

/-- The process-wide `isChecking` / `isPaused` flags. -/
structure ScanState where
  isChecking : Bool
  isPaused : Bool
deriving DecidableEq

/-- `POST /stop` (lines 1213-1217 and 431-435). -/
def stopHandler (_ : ScanState) : ScanState :=
  { isChecking := false, isPaused := false }

/-- `POST /pause`. -/
def pauseHandler (s : ScanState) : ScanState :=
  { s with isPaused := true }

/-- `POST /start` flag effect: already running only clears the pause
(no fresh run, second component `false`); otherwise a fresh unpaused
run begins. -/
def startHandler (s : ScanState) : ScanState × Bool :=
  if s.isChecking then ({ s with isPaused := false }, false)
  else ({ isChecking := true, isPaused := false }, true)

/-- Outer strength computation of the first `/start` variant
(line 370): `length === '24' ? 256 : length === '18' ? 192 : 128`. -/
def strengthOuterA (length : String) : Nat :=
  if length == "24" then 256 else if length == "18" then 192 else 128

/-- Inner, shadowing strength recomputation inside `runChecks` of the
first variant (line 379): `length === '24' ? 256 : 128`; this is the
strength every generated mnemonic actually uses there. -/
def strengthInnerA (length : String) : Nat :=
  if length == "24" then 256 else 128

/-- Synchronous `/start` response of the second variant. -/
inductive StartResponse where
  | started (strength : Nat)
  | badRequest (msg : String)
deriving DecidableEq

/-- JavaScript `parseInt` on the request's length value: an optional
sign followed by the longest digit run; no digits is `NaN` (`none`). -/
def jsParseInt (s : String) : Option Int :=
  match s.toList with
  | '-' :: rest =>
    let digits := rest.takeWhile Char.isDigit
    if digits.isEmpty then none else some (-(digitsToNat digits : Int))
  | '+' :: rest =>
    let digits := rest.takeWhile Char.isDigit
    if digits.isEmpty then none else some (digitsToNat digits : Int)
  | l =>
    let digits := l.takeWhile Char.isDigit
    if digits.isEmpty then none else some (digitsToNat digits : Int)

/-- The `switch (parseInt(length))` of the second `/start` variant
(lines 1117-1130): 12, 18, 24 map to 128, 192, 256; anything else is a
synchronous 400 response. -/
def startStrengthC (parsedLength : Option Int) : StartResponse :=
  match parsedLength with
  | some 12 => .started 128
  | some 18 => .started 192
  | some 24 => .started 256
  | _ => .badRequest "Invalid seed phrase length."

/-- The second `/start` variant on the raw request value. -/
def startC (length : String) : StartResponse :=
  startStrengthC (jsParseInt length)

/-! ## Address derivation (`deriveAddress`, lines 96-135) -/

/-- The cryptographic library calls `deriveAddress` composes, as
explicit functions over abstract key-material types: `bip32`
`root.derivePath(path).publicKey`, `bitcoin.payments.p2pkh` address
construction, `ethers.Wallet.fromPhrase(mnemonic, path).privateKey`
(throwing is `none`), `tronWeb.address.fromPrivateKey` (falsy is
`none`), `Keypair.fromSeed(..).publicKey.toBase58()`, and the TON
`mnemonicToWalletKey` / `WalletContractV4` address. -/
structure CryptoLibs (Root PubKey : Type) where
  derivePathPub : Root → String → PubKey
  p2pkhAddress : PubKey → String
  ethWalletPrivateKey : String → String → Option String
  tronFromPrivateKey : String → Option String
  solanaFromSeed : List Nat → String
  tonWalletAddress : List String → String

/-- The `{ seed, root, mnemonic }` argument object of `deriveAddress`. -/
structure DeriveArgs (Root : Type) where
  seed : List Nat
  root : Root
  mnemonic : String

/-- `deriveAddress` outcome: an address string, the `false` return of
the tron catch, or the thrown unsupported-currency error. -/
inductive DeriveOutcome where
  | addr (a : String)
  | failed
  | unsupported
deriving DecidableEq

def bitcoinDerivationPath : String := "m/44\x27/0\x27/0\x27/0/0"

def tronDerivationPath : String := "m/44\x27/195\x27/0\x27/0/0"

/-- `wallet.privateKey.substring(2)`. -/
def dropHexTag (s : String) : String := String.mk (s.toList.drop 2)

/-- `deriveAddress(currency, { seed, root, mnemonic })` of the first
variant: bitcoin from the BIP32 root, tron via an ethers wallet and the
Tron encoding (errors caught to `false`), solana from the first 32 seed
bytes, ton from the mnemonic words; other currencies throw. -/
def deriveAddress {Root PubKey : Type} (libs : CryptoLibs Root PubKey)
    (currency : String) (args : DeriveArgs Root) : DeriveOutcome :=
  if currency == "bitcoin" then
    .addr (libs.p2pkhAddress (libs.derivePathPub args.root bitcoinDerivationPath))
  else if currency == "tron" then
    match libs.ethWalletPrivateKey args.mnemonic tronDerivationPath with
    | some pk =>
      match libs.tronFromPrivateKey (dropHexTag pk) with
      | some a => .addr a
      | none => .failed
    | none => .failed
  else if currency == "solana" then
    .addr (libs.solanaFromSeed (args.seed.take 32))
  else if currency == "ton" then
    .addr (libs.tonWalletAddress (splitOnSpace args.mnemonic))
  else .unsupported

/-! ## Non-negativity side conditions on provider data

The resolver subtracts the spent sum from the funded sum on the bitcoin
path and coerces raw JSON fields to `BigInt` elsewhere, so the sign of a
returned balance is inherited from the response data.  The predicates
below state the data-side conditions (funded at least spent; raw values
non-negative) under which every balance the resolver produces is
non-negative. -/

/-- Data condition for the `mempool_space` extraction: whenever both
sums are present and coercible, the funded sum dominates the spent sum. -/
def mempoolNonNeg (data : Json) (path : String) : Bool :=
  match getNestedValue data path with
  | some stats =>
    match getField stats "funded_txo_sum", getField stats "spent_txo_sum" with
    | some fj, some sj =>
      match jsToBigInt fj, jsToBigInt sj with
      | some funded, some spent => decide (spent ≤ funded)
      | _, _ => true
    | _, _ => true
  | none => true

/-- Data condition for the generic extraction: a coercible raw balance
is non-negative. -/
def genericNonNeg (data : Json) (path : String) : Bool :=
  match getNestedValue data path with
  | some raw =>
    match jsToBigInt raw with
    | some v => decide (0 ≤ v)
    | none => true
  | none => true

/-- Data condition on one remote event for the given provider. -/
def eventNonNeg (p : Provider) (e : RemoteEvent) : Bool :=
  match e with
  | .err => true
  | .val v => decide (0 ≤ v)
  | .json data =>
    match p.responsePath with
    | none => true
    | some path =>
      if p.name == "mempool_space" then mempoolNonNeg data path
      else genericNonNeg data path

theorem extractMempool_nonneg {data : Json} {path : String} {v : Int}
    (hok : extractMempool data path = .ok v)
    (hnn : mempoolNonNeg data path = true) : 0 ≤ v := by
  unfold extractMempool at hok
  split at hok
  · rename_i stats hstats
    split at hok
    · split at hok
      · rename_i fj hfj
        split at hok
        · rename_i funded hfunded
          split at hok
          · rename_i sj hsj
            split at hok
            · rename_i spent hspent
              cases hok
              have h2 : spent ≤ funded := by
                simpa [mempoolNonNeg, hstats, hfj, hfunded, hsj, hspent] using hnn
              omega
            · exact absurd hok (by simp)
          · exact absurd hok (by simp)
        · exact absurd hok (by simp)
      · exact absurd hok (by simp)
    · cases hok; omega
  · cases hok; omega

theorem extractGeneric_nonneg {data : Json} {path : String} {v : Int}
    (hok : extractGeneric data path = .ok v)
    (hnn : genericNonNeg data path = true) : 0 ≤ v := by
  unfold extractGeneric at hok
  split at hok
  · rename_i raw hraw
    split at hok
    · cases hok; omega
    · split at hok
      · rename_i w hw
        cases hok
        simpa [genericNonNeg, hraw, hw] using hnn
      · exact absurd hok (by simp)
  · cases hok; omega

theorem tryProviderNative_nonneg {p : Provider} {e : RemoteEvent} {v : Int}
    (hok : tryProviderNative p e = .ok v)
    (hnn : eventNonNeg p e = true) : 0 ≤ v := by
  cases e with
  | err =>
    simp only [tryProviderNative, directClientResult] at hok
    split at hok
    · exact absurd hok (by simp)
    · split at hok
      · exact absurd hok (by simp)
      · exact absurd hok (by simp)
  | val w =>
    have h0 : 0 ≤ w := by simpa [eventNonNeg] using hnn
    simp only [tryProviderNative, directClientResult] at hok
    split at hok
    · simp at hok; omega
    · split at hok
      · simp at hok; omega
      · exact absurd hok (by simp)
  | json data =>
    simp only [tryProviderNative, directClientResult] at hok
    split at hok
    · exact absurd hok (by simp)
    · split at hok
      · exact absurd hok (by simp)
      · split at hok
        · exact absurd hok (by simp)
        · split at hok
          · rename_i path hpath
            split at hok
            · rename_i hmp
              have h2 : mempoolNonNeg data path = true := by
                simpa [eventNonNeg, hpath, hmp] using hnn
              exact extractMempool_nonneg hok h2
            · rename_i hmp
              have h2 : genericNonNeg data path = true := by
                simpa [eventNonNeg, hpath, hmp] using hnn
              exact extractGeneric_nonneg hok h2
          · exact absurd hok (by simp)

theorem runTokensAux_pos {currency : String} {probe : String → Except Unit Int}
    {acc : List (String × Int)} {toks : List (String × TokenInfo)}
    {tb : List (String × Int)}
    (hacc : ∀ q ∈ acc, 0 < q.2)
    (hok : runTokensAux currency probe acc toks = .ok tb) :
    ∀ q ∈ tb, 0 < q.2 := by
  induction toks generalizing acc with
  | nil =>
    unfold runTokensAux at hok
    cases hok
    exact hacc
  | cons t ts ih =>
    unfold runTokensAux at hok
    split at hok
    · exact absurd hok (by simp)
    · rename_i v hv
      refine ih ?_ hok
      intro q hq
      split at hq
      · rename_i hpos
        rcases List.mem_append.mp hq with h | h
        · exact hacc q h
        · simp at h
          subst h
          simpa using hpos
      · exact hacc q hq

theorem runTokens_pos {currency : String} {toks : List (String × TokenInfo)}
    {probe : String → Except Unit Int} {tb : List (String × Int)}
    (hok : runTokens currency toks probe = .ok tb) :
    ∀ q ∈ tb, 0 < q.2 :=
  runTokensAux_pos (by simp) hok

theorem attemptProvider_nonneg {currency : String} {a : AttemptInput} {r : BalanceResult}
    (hok : attemptProvider currency a = .ok r)
    (hnn : eventNonNeg a.provider a.event = true) :
    0 ≤ r.native ∧ ∀ q ∈ r.tokens, 0 < q.2 := by
  unfold attemptProvider at hok
  split at hok
  · exact absurd hok (by simp)
  · rename_i balance hbal
    have hb : 0 ≤ balance := tryProviderNative_nonneg hbal hnn
    split at hok
    · cases hok
      exact ⟨hb, by simp⟩
    · split at hok
      · exact absurd hok (by simp)
      · split at hok
        · split at hok
          · exact absurd hok (by simp)
          · rename_i tb htb
            split at hok
            · cases hok
              exact ⟨hb, runTokens_pos htb⟩
            · cases hok
              exact ⟨hb, by simp⟩
        · cases hok
          exact ⟨hb, by simp⟩

theorem getBalanceLoop_nonneg (currency : String) (l : List AttemptInput)
    (hnn : ∀ x ∈ l, eventNonNeg x.provider x.event = true) :
    0 ≤ (getBalanceLoop currency l).1.native ∧
      ∀ q ∈ (getBalanceLoop currency l).1.tokens, 0 < q.2 := by
  induction l with
  | nil => exact ⟨le_refl 0, by simp [getBalanceLoop]⟩
  | cons a rest ih =>
    have ha := hnn a (List.mem_cons_self a rest)
    have ihr := ih (fun x hx => hnn x (List.mem_cons_of_mem a hx))
    unfold getBalanceLoop
    split
    · rename_i r hr
      exact attemptProvider_nonneg hr ha
    · exact ihr

/-! ## Fallback-loop lemmas -/

theorem getBalanceLoop_all_fail (currency : String) (l : List AttemptInput)
    (h : ∀ x ∈ l, attemptProvider currency x = .error ()) :
    getBalanceLoop currency l = ({ native := 0 }, List.replicate l.length 1000) := by
  induction l with
  | nil => rfl
  | cons a rest ih =>
    have ha := h a (List.mem_cons_self a rest)
    have ihr := ih (fun x hx => h x (List.mem_cons_of_mem a hx))
    unfold getBalanceLoop
    rw [ha, ihr]
    simp [List.replicate_succ]

theorem getBalanceLoop_first_win (currency : String) (failed : List AttemptInput)
    (winner : AttemptInput) (rest : List AttemptInput) (r : BalanceResult)
    (hf : ∀ x ∈ failed, attemptProvider currency x = .error ())
    (hw : attemptProvider currency winner = .ok r) :
    getBalanceLoop currency (failed ++ winner :: rest) =
      (r, List.replicate failed.length 1000) := by
  induction failed with
  | nil =>
    simp [getBalanceLoop, hw]
  | cons x xs ih =>
    have hx := hf x (List.mem_cons_self x xs)
    have ihr := ih (fun y hy => hf y (List.mem_cons_of_mem x hy))
    simp [getBalanceLoop, hx, ihr, List.replicate_succ]

/-! ## Exchange-rate fold lemmas -/

theorem rateStep_ne {cache : RateCache} {entry : String × Option Rat} {k : String}
    (h : currencyForSymbol entry.1 ≠ some k) : rateStep cache entry k = cache k := by
  unfold rateStep
  cases hcur : currencyForSymbol entry.1 with
  | none => rfl
  | some cur =>
    have hck : ¬ (k = cur) := by
      intro hh
      exact h (by rw [hh]; exact hcur)
    cases hv : entry.2 with
    | none => rfl
    | some usd =>
      by_cases hz : usd = 0
      · simp [hz]
      · simp [hz, setRate, hck]

theorem foldl_rateStep_ne {data : List (String × Option Rat)} {k : String}
    (h : ∀ e ∈ data, currencyForSymbol e.1 ≠ some k) (cache : RateCache) :
    (data.foldl rateStep cache) k = cache k := by
  induction data generalizing cache with
  | nil => rfl
  | cons e es ih =>
    have he := h e (List.mem_cons_self e es)
    have ihr := ih (fun x hx => h x (List.mem_cons_of_mem e hx))
    simp only [List.foldl_cons]
    rw [ihr, rateStep_ne he]

/-! ## Concrete responses and probes used by the settled claims -/

/-- A mempool.space body `{chain_stats: {funded_txo_sum, spent_txo_sum}}`. -/
def btcStatsJson (funded spent : Int) : Json :=
  .obj [("chain_stats", .obj [("funded_txo_sum", .num funded), ("spent_txo_sum", .num spent)])]

/-- A token probe whose contract calls all return `0n`. -/
def noTokenProbe : String → Except Unit Int := fun _ => .ok 0

/-- An etherscan body `{status: '1', result: v}`. -/
def ethOkJson (v : Int) : Json := .obj [("status", .str "1"), ("result", .num v)]

/-- A token probe whose contract calls all return `7n`. -/
def probeSeven : String → Except Unit Int := fun _ => .ok 7

def c1FailAttempt : AttemptInput := ⟨mempoolSpaceProvider, .err, noTokenProbe⟩

def c1WinAttempt : AttemptInput :=
  ⟨mempoolSpaceProvider, .json (btcStatsJson 500000 200000), noTokenProbe⟩

def tonFailAttempt : AttemptInput := ⟨toncenterProvider, .err, noTokenProbe⟩

/-- A cache holding only a bitcoin price of 123. -/
def cacheBtc123 : RateCache := fun k => if k == "bitcoin" then some 123 else none

/-! ## Claims -/

/-- Claim C1: for a chain with a non-empty provider list, the resolver
tries providers in sequence; each failing attempt is followed by one
fixed 1000 ms backoff, and the first attempt to complete without an
error wins: its result is returned with no remaining provider tried
(the result does not depend on `rest`).  In particular, when the first
`failed.length` providers fail and the next one succeeds, the
succeeding provider's value is returned. -/
theorem resolver_fallback_first_success (currency : String) (failed : List AttemptInput)
    (winner : AttemptInput) (rest : List AttemptInput) (r : BalanceResult)
    (hf : ∀ x ∈ failed, attemptProvider currency x = Except.error ())
    (hw : attemptProvider currency winner = Except.ok r) :
    getBalance currency (some (failed ++ winner :: rest)) =
      (JsBalanceReturn.res r, List.replicate failed.length 1000) := by
  have hl := getBalanceLoop_first_win currency failed winner rest r hf hw
  cases failed with
  | nil => simp_all [getBalance]
  | cons x xs => simp_all [getBalance]

theorem resolver_fallback_first_success_witness :
    getBalance "bitcoin" (some ([c1FailAttempt] ++ c1WinAttempt :: [])) =
      (JsBalanceReturn.res { native := 300000 }, List.replicate 1 1000) :=
  resolver_fallback_first_success "bitcoin" [c1FailAttempt] c1WinAttempt [] { native := 300000 }
    (by intro x hx; simp at hx; subst hx; rfl) rfl

/-- Claim C2: when every provider of a (non-empty) list fails, the
resolver returns `{native: 0n}` as a normal value — the function is
total, no error escapes to the caller — after one 1000 ms backoff per
failed provider. -/
theorem resolver_all_fail_zero (currency : String) (a : AttemptInput) (l : List AttemptInput)
    (h : ∀ x ∈ a :: l, attemptProvider currency x = Except.error ()) :
    getBalance currency (some (a :: l)) =
      (JsBalanceReturn.res { native := 0 }, List.replicate (a :: l).length 1000) := by
  have hl := getBalanceLoop_all_fail currency (a :: l) h
  simp [getBalance, hl]

theorem resolver_all_fail_zero_witness :
    getBalance "ton" (some [tonFailAttempt, tonFailAttempt]) =
      (JsBalanceReturn.res { native := 0 }, List.replicate 2 1000) :=
  resolver_all_fail_zero "ton" tonFailAttempt [tonFailAttempt]
    (by intro x hx; simp at hx; subst hx; rfl)

/-- Claim C3: the bitcoin extraction is the funded-output sum minus the
spent-output sum of the chain-stats object, and on the concrete body
`{chain_stats: {funded_txo_sum: 500000, spent_txo_sum: 200000}}` the
resolver returns balance 300000. -/
theorem bitcoin_extraction_funded_minus_spent :
    (∀ funded spent : Int,
        tryProviderNative mempoolSpaceProvider (.json (btcStatsJson funded spent)) =
          Except.ok (funded - spent)) ∧
    getBalance "bitcoin"
        (some [⟨mempoolSpaceProvider, .json (btcStatsJson 500000 200000), noTokenProbe⟩]) =
      (JsBalanceReturn.res { native := 300000 }, []) :=
  ⟨fun _ _ => rfl, by decide⟩

/-- Claim C4, counterexample: a mempool.space body whose spent sum
exceeds its funded sum makes the resolver return the negative balance
`-100`, so the balance returned is not always non-negative. -/
theorem balance_nonneg_cex :
    retNative (getBalance "bitcoin"
        (some [⟨mempoolSpaceProvider, .json (btcStatsJson 100 200), noTokenProbe⟩])).1 = -100 ∧
    retNative (getBalance "bitcoin"
        (some [⟨mempoolSpaceProvider, .json (btcStatsJson 100 200), noTokenProbe⟩])).1 < 0 :=
  ⟨by decide, by decide⟩

/-- Claim C4, amended: whenever the provider responses satisfy the
data-side sign conditions — the bitcoin chain-stats funded sum is at
least the spent sum, and every coercible raw balance value is
non-negative — the resolver returns a non-negative native balance, and
every token balance in the returned mapping is strictly positive. -/
theorem balance_nonneg_amended (currency : String) (l : List AttemptInput)
    (h : ∀ x ∈ l, eventNonNeg x.provider x.event = true) :
    0 ≤ retNative (getBalance currency (some l)).1 ∧
      ∀ q ∈ retTokens (getBalance currency (some l)).1, 0 < q.2 := by
  cases l with
  | nil => exact ⟨le_refl 0, by simp [getBalance, retTokens]⟩
  | cons a rest =>
    have hnn := getBalanceLoop_nonneg currency (a :: rest) h
    simpa [getBalance, retNative, retTokens] using hnn

theorem balance_nonneg_amended_witness :
    (0 ≤ retNative (getBalance "bitcoin" (some [c1WinAttempt])).1 ∧
      ∀ q ∈ retTokens (getBalance "bitcoin" (some [c1WinAttempt])).1, 0 < q.2) :=
  balance_nonneg_amended "bitcoin" [c1WinAttempt] (by decide)

/-- Claim C5, counterexample: on ethereum with a succeeding native
lookup of positive balance 5, the resolver returns immediately with an
empty tokens mapping even though the token contract probe would return
the nonzero balance 7 — token contracts are not probed after a positive
native lookup. -/
theorem token_probe_skipped_cex :
    getBalance "ethereum" (some [⟨etherscanProvider, .json (ethOkJson 5), probeSeven⟩]) =
      (JsBalanceReturn.res { native := 5 }, []) ∧
    probeSeven usdtEthereum.address = Except.ok 7 ∧ (0 : Int) < 7 :=
  ⟨by decide, rfl, by decide⟩

/-- Claim C5, amended: on ethereum (the only configured chain defining
token contracts), when the native lookup succeeds with a non-positive
balance, the resolver probes the token contract via the contract-call
oracle, and the token balance is included in the returned mapping
exactly when it is positive; a succeeding positive native lookup
returns immediately without probing. -/
theorem token_probe_zero_native (v tv : Int) (probe : String → Except Unit Int)
    (e : RemoteEvent) (hv : v ≤ 0)
    (he : tryProviderNative etherscanProvider e = Except.ok v)
    (hp : probe usdtEthereum.address = Except.ok tv) :
    getBalance "ethereum" (some [⟨etherscanProvider, e, probe⟩]) =
      (JsBalanceReturn.res
        { native := v, tokens := if 0 < tv then [("usdt", tv)] else [] }, []) := by
  have hrt : runTokens "ethereum" [("usdt", usdtEthereum)] probe =
      .ok (if 0 < tv then [("usdt", tv)] else []) := by
    unfold runTokens runTokensAux
    simp [hp]
    rfl
  have hnet : networks "ethereum" =
      some { tokens := some [("usdt", usdtEthereum)], decimals := 18 } := rfl
  have hat : attemptProvider "ethereum" ⟨etherscanProvider, e, probe⟩ =
      .ok { native := v, tokens := if 0 < tv then [("usdt", tv)] else [] } := by
    unfold attemptProvider
    simp only [he]
    rw [if_neg (by omega : ¬ 0 < v)]
    rw [hnet]
    simp only [hrt]
    by_cases htv : 0 < tv
    · simp [htv]
    · simp [htv]
  simp [getBalance, getBalanceLoop, hat]

theorem token_probe_zero_native_witness :
    getBalance "ethereum" (some [⟨etherscanProvider, .json (ethOkJson 0), probeSeven⟩]) =
      (JsBalanceReturn.res { native := 0, tokens := [("usdt", 7)] }, []) := by
  simpa using
    token_probe_zero_native 0 7 probeSeven (.json (ethOkJson 0)) (le_refl 0) rfl rfl

/-- Claim C6: the second `/start` variant maps lengths 12, 18, 24 to
strengths 128, 192, 256 and rejects any other length synchronously with
a 400 response; the first variant, however, computes 192 for length
`'18'` at the handler level (line 370) but its shadowing recomputation
inside the run loop (line 379) drops the 18 case, so every mnemonic of
such a run is generated at strength 128, and an invalid length there
silently defaults to 128 instead of failing. -/
theorem start_strength_selection :
    strengthOuterA "18" = 192 ∧ strengthInnerA "18" = 128 ∧
    startC "12" = StartResponse.started 128 ∧
    startC "18" = StartResponse.started 192 ∧
    startC "24" = StartResponse.started 256 ∧
    startC "13" = StartResponse.badRequest "Invalid seed phrase length." ∧
    strengthInnerA "13" = 128 ∧ strengthOuterA "13" = 128 :=
  ⟨rfl, rfl, by decide, by decide, by decide, by decide, rfl, rfl⟩

/-- Claim C7, counterexample: a previously cached bitcoin price of 123
is not left untouched by a failed refresh — the error branch overwrites
it with the hardcoded fallback 60000. -/
theorem refresh_error_overwrites_cache :
    cacheBtc123 "bitcoin" = some 123 ∧
    updateAllExchangeRates cacheBtc123 none "bitcoin" = some 60000 ∧
    (some (123 : Rat) ≠ some (60000 : Rat)) :=
  ⟨rfl, rfl, by norm_num⟩

/-- Claim C7, amended: a malformed/error price response overwrites the
five known symbols with the hardcoded fallback rates (bitcoin 60000,
ethereum 3000, solana 150, ton 6, usdt 1), leaving all other keys
unchanged; a successful partial response leaves every symbol absent
from it at its old cached value and replaces each symbol present (with
a truthy USD price) by the response value. -/
theorem refresh_stale_and_fallback :
    (∀ (cache : RateCache) (k : String),
        k ≠ "bitcoin" → k ≠ "ethereum" → k ≠ "solana" → k ≠ "ton" → k ≠ "usdt" →
        updateAllExchangeRates cache none k = cache k) ∧
    (∀ cache : RateCache,
        updateAllExchangeRates cache none "bitcoin" = some 60000 ∧
        updateAllExchangeRates cache none "ethereum" = some 3000 ∧
        updateAllExchangeRates cache none "solana" = some 150 ∧
        updateAllExchangeRates cache none "ton" = some 6 ∧
        updateAllExchangeRates cache none "usdt" = some 1) ∧
    (∀ (cache : RateCache) (data : List (String × Option Rat)) (k : String),
        (∀ e ∈ data, currencyForSymbol e.1 ≠ some k) →
        updateAllExchangeRates cache (some data) k = cache k) ∧
    (∀ (cache : RateCache) (pre post : List (String × Option Rat)) (sym k : String)
        (usd : Rat), currencyForSymbol sym = some k → usd ≠ 0 →
        (∀ e ∈ post, currencyForSymbol e.1 ≠ some k) →
        updateAllExchangeRates cache (some (pre ++ (sym, some usd) :: post)) k = some usd) := by
  refine ⟨?_, ?_, ?_, ?_⟩
  · intro cache k h1 h2 h3 h4 h5
    simp [updateAllExchangeRates, applyFallbackRates, setRate, h1, h2, h3, h4, h5]
  · intro cache
    exact ⟨rfl, rfl, rfl, rfl, rfl⟩
  · intro cache data k h
    exact foldl_rateStep_ne h cache
  · intro cache pre post sym k usd hsym husd hpost
    simp only [updateAllExchangeRates]
    rw [List.foldl_append]
    simp only [List.foldl_cons]
    rw [foldl_rateStep_ne hpost]
    simp [rateStep, hsym, husd, setRate]

theorem refresh_stale_and_fallback_witness :
    updateAllExchangeRates cacheBtc123 none "dogecoin" = cacheBtc123 "dogecoin" ∧
    updateAllExchangeRates cacheBtc123 (some [("ETH", some 2500)]) "bitcoin" =
      cacheBtc123 "bitcoin" ∧
    updateAllExchangeRates cacheBtc123
        (some ([("ETH", some 2500)] ++ ("BTC", some 64000) :: [])) "bitcoin" = some 64000 :=
  ⟨refresh_stale_and_fallback.1 cacheBtc123 "dogecoin"
      (by decide) (by decide) (by decide) (by decide) (by decide),
   refresh_stale_and_fallback.2.2.1 cacheBtc123 [("ETH", some 2500)] "bitcoin" (by decide),
   refresh_stale_and_fallback.2.2.2 cacheBtc123 [("ETH", some 2500)] [] "BTC" "bitcoin" 64000
      rfl (by norm_num) (by simp)⟩

/-- Claim C8: address derivation is deterministic — `deriveAddress` is
a function of the seed, BIP32 root and mnemonic alone (for fixed
library semantics), so two calls with identical inputs yield identical
address strings; moreover the bitcoin branch reads only the root, the
solana branch only the first 32 seed bytes, and the tron and ton
branches only the mnemonic. -/
theorem derive_deterministic {Root PubKey : Type} (libs : CryptoLibs Root PubKey)
    (currency : String) (a b : DeriveArgs Root)
    (hs : a.seed = b.seed) (hr : a.root = b.root) (hm : a.mnemonic = b.mnemonic) :
    deriveAddress libs currency a = deriveAddress libs currency b ∧
    (∀ c : DeriveArgs Root, c.root = a.root →
        deriveAddress libs "bitcoin" c = deriveAddress libs "bitcoin" a) ∧
    (∀ c : DeriveArgs Root, c.seed.take 32 = a.seed.take 32 →
        deriveAddress libs "solana" c = deriveAddress libs "solana" a) ∧
    (∀ c : DeriveArgs Root, c.mnemonic = a.mnemonic →
        deriveAddress libs "tron" c = deriveAddress libs "tron" a ∧
        deriveAddress libs "ton" c = deriveAddress libs "ton" a) := by
  have hab : a = b := by
    obtain ⟨sa, ra, ma⟩ := a
    obtain ⟨sb, rb, mb⟩ := b
    simp_all
  refine ⟨by rw [hab], ?_, ?_, ?_⟩
  · intro c hc
    simp [deriveAddress, hc]
  · intro c hc
    simp [deriveAddress, hc]
  · intro c hc
    constructor
    · simp [deriveAddress, hc]
    · simp [deriveAddress, hc]

def witnessLibs : CryptoLibs Unit Unit where
  derivePathPub := fun _ _ => ()
  p2pkhAddress := fun _ => "btcAddr"
  ethWalletPrivateKey := fun _ _ => some "0xdeadbeef"
  tronFromPrivateKey := fun _ => some "tronAddr"
  solanaFromSeed := fun _ => "solAddr"
  tonWalletAddress := fun _ => "tonAddr"

def witnessArgs : DeriveArgs Unit :=
  { seed := [1, 2, 3], root := (), mnemonic := "alpha beta gamma" }

theorem derive_deterministic_witness :
    deriveAddress witnessLibs "bitcoin" witnessArgs =
      deriveAddress witnessLibs "bitcoin" witnessArgs :=
  (derive_deterministic witnessLibs "bitcoin" witnessArgs witnessArgs rfl rfl rfl).1

/-- Claim C9: a chain whose provider list is missing or empty makes the
resolver return the plain zero balance without throwing (the function
is total and takes the early-return branch). -/
theorem resolver_no_providers_zero (currency : String) :
    getBalance currency none = (JsBalanceReturn.num 0, []) ∧
    getBalance currency (some []) = (JsBalanceReturn.num 0, []) ∧
    retNative (getBalance currency none).1 = 0 :=
  ⟨rfl, rfl, rfl⟩

/-- Claim C10: the stop handler resets both scan flags, so from any
prior state — in particular after a pause — a subsequent start begins a
fresh run (`true`) with `isChecking = true` and `isPaused = false`. -/
theorem stop_resets_flags (s : ScanState) :
    stopHandler s = { isChecking := false, isPaused := false } ∧
    startHandler (stopHandler s) = ({ isChecking := true, isPaused := false }, true) ∧
    startHandler (stopHandler (pauseHandler s)) =
      ({ isChecking := true, isPaused := false }, true) :=
  ⟨rfl, rfl, rfl⟩

end Seedphrase
